import Mathlib

/-!
CloudFormation stack create / list / delete example (`CfnCrudOps.go`)

A shallow embedding of `go/example_code/cloudformation/CfnCrudOps.go` and of the
test `TestCfnCrudOps` in `CfnCrudOps_test.go`, followed by theorems about them.

Modelling conventions

* Go strings are `String`; a Go `error` is the text its `Error()` method yields,
  `nil` is `none`.
* `int64` values are `Int`, and every arithmetic result that Go would truncate
  is passed through `wrapInt64` (two's complement wrap-around).  Go's `int` is
  taken to be 64 bits wide.
* Everything the program does to the outside world (requests to the
  CloudFormation client, lines printed, test-log lines, sleeps) is appended, in
  program order, to a trace `List Event`.
* The CloudFormation client is a `Service`: for each request it gives the
  answer as a function of the trace so far and of the request, so an answer may
  depend on every earlier request and on the time slept.
* Loops whose termination is not evident take a `fuel : Nat`, the number of
  iterations they may run.
-/

namespace CfnCrudOps

/-! ## Data model -/

/-- A Go `error`, identified with its message. -/
abbrev Error := String

/-- The type `NameAndStatus [2]string`: index `0` is `.1`, index `1` is `.2`. -/
abbrev NameAndStatus := String × String

/-- The type `StackNamesAndStatus []NameAndStatus`. -/
abbrev StackNamesAndStatus := List NameAndStatus

/-- The two fields of `cloudformation.StackSummary` that the program reads.  Both
are required fields of the response shape, so they are taken as present. -/
structure StackSummary where
  StackName : String
  StackStatus : String
deriving DecidableEq, Repr

/-- A request sent to the CloudFormation client. -/
inductive Call
  | createStack (stackName templateBody : String)
  | waitUntilStackCreateComplete (stackName : String)
  | listStacks (statusFilter : List String)
  | deleteStack (stackName : String)
  | waitUntilStackDeleteComplete (stackName : String)
deriving DecidableEq, Repr

/-- An observable action of the program or of the test. -/
inductive Event
  | call (c : Call)
  | println (s : String)
  | tLog (s : String)
  | tErrorf (s : String)
  | tFatal (s : String)
  | logFatal (s : String)
  | sleep (nanoseconds : Int)
deriving DecidableEq, Repr

/-- The CloudFormation client.  Each field answers one kind of request, given the
trace of everything that happened before the request. -/
structure Service where
  CreateStack : List Event → String → String → Option Error
  WaitUntilStackCreateComplete : List Event → String → Option Error
  ListStacks : List Event → List String → Except Error (List StackSummary)
  DeleteStack : List Event → String → Option Error
  WaitUntilStackDeleteComplete : List Event → String → Option Error

/-- The local machine: `ioutil.ReadFile` and the text of `uuid.New().String()`. -/
structure Host where
  ReadFile : String → Except Error String
  uuid : String

/-- Truncation of an integer to `int64`. -/
def wrapInt64 (x : Int) : Int :=
  (x + 9223372036854775808) % 18446744073709551616 - 9223372036854775808

/-! ## `CfnCrudOps.go` -/

/-- `CreateStack` (lines 29-47). -/
def CreateStack (svc : Service) (tr : List Event) (stackName templateBody : String) :
    Option Error × List Event :=
  let tr1 := tr ++ [Event.call (Call.createStack stackName templateBody)]
  match svc.CreateStack tr stackName templateBody with
  | some err => (some err, tr1)
  | none =>
    let tr2 := tr1 ++ [Event.call (Call.waitUntilStackCreateComplete stackName)]
    match svc.WaitUntilStackCreateComplete tr1 stackName with
    | some err => (some err, tr2)
    | none => (none, tr2)

/-- The `filter` literal of `GetStackNamesAndStatus` (line 63). -/
def allStatusValues : List String :=
  ["CREATE_IN_PROGRESS", "CREATE_FAILED", "CREATE_COMPLETE", "DELETE_COMPLETE",
   "ROLLBACK_IN_PROGRESS", "ROLLBACK_FAILED", "ROLLBACK_COMPLETE", "DELETE_IN_PROGRESS",
   "DELETE_FAILED", "UPDATE_IN_PROGRESS", "UPDATE_COMPLETE_CLEANUP_IN_PROGRESS",
   "UPDATE_COMPLETE", "UPDATE_ROLLBACK_IN_PROGRESS", "UPDATE_ROLLBACK_FAILED",
   "UPDATE_ROLLBACK_COMPLETE_CLEANUP_IN_PROGRESS", "UPDATE_ROLLBACK_COMPLETE",
   "REVIEW_IN_PROGRESS"]

/-- The `for ... range resp.StackSummaries` loop of `GetStackNamesAndStatus`
(lines 71-74), started with the slice `stacks`. -/
def appendSummaries (stacks' : StackNamesAndStatus) (summaries : List StackSummary) :
    StackNamesAndStatus :=
  summaries.foldl (fun stacks' stack => stacks' ++ [(stack.StackName, stack.StackStatus)]) stacks'

/-- `GetStackNamesAndStatus` (lines 55-77).  The result is Go's pair
`(stacks, err)` together with the new trace. -/
def GetStackNamesAndStatus (svc : Service) (tr : List Event) :
    (StackNamesAndStatus × Option Error) × List Event :=
  let stacks' : StackNamesAndStatus := []
  let tr1 := tr ++ [Event.call (Call.listStacks allStatusValues)]
  match svc.ListStacks tr allStatusValues with
  | Except.error err => ((stacks', some err), tr1)
  | Except.ok summaries => ((appendSummaries stacks' summaries, none), tr1)

/-- `IsNameInList` (lines 79-92). -/
def IsNameInList : StackNamesAndStatus → String → NameAndStatus × Bool
  | [], _ => (("", ""), false)
  | stack :: list, name =>
    if stack.1 = name then ((stack.1, stack.2), true) else IsNameInList list name

/-- `DeleteStack` (lines 94-114). -/
def DeleteStack (svc : Service) (tr : List Event) (stackName : String) :
    Option Error × List Event :=
  let tr1 := tr ++ [Event.call (Call.deleteStack stackName)]
  match svc.DeleteStack tr stackName with
  | some err => (some err, tr1)
  | none =>
    let tr2 := tr1 ++ [Event.call (Call.waitUntilStackDeleteComplete "my-groovy-stack")]
    match svc.WaitUntilStackDeleteComplete tr1 "my-groovy-stack" with
    | some err => (some err, tr2)
    | none => (none, tr2)

/-- `MultiplyDuration` (lines 116-119); a `time.Duration` is an `int64` count of
nanoseconds. -/
def MultiplyDuration (factor : Int) (d : Int) : Int :=
  wrapInt64 (factor * d)

/-- The constant `time.Second`. -/
def Second : Int := 1000000000

/-- The command-line flags after `flag.Parse()` (lines 122-131). -/
structure Flags where
  d : Int
  o : String
  n : String
  t : String

/-- How control left a poll loop. -/
inductive LoopExit
  | condFalse
  | broke
  | returned
  | outOfFuel
deriving DecidableEq, Repr

/-- What a poll loop of `main` leaves behind: how it ended, the trace, and (for
the statements below) the value of `duration` at the start of each iteration
that ran. -/
structure PollResult where
  exit : LoopExit
  tr : List Event
  counters : List Int
deriving DecidableEq, Repr

/-- The `for duration < maxRetrySeconds` loop of `main` (lines 192-210).  The
`stackInNames` assigned in the body is declared there with `:=`, so it is a
variable of the loop body and the loop changes nothing but `duration`. -/
def pollLoop (svc : Service) (stackName : String) (maxRetrySeconds : Int) :
    Nat → Int → List Event → PollResult
  | fuel, duration, tr =>
    if duration < maxRetrySeconds then
      match fuel with
      | 0 => ⟨LoopExit.outOfFuel, tr, []⟩
      | fuel + 1 =>
        match GetStackNamesAndStatus svc tr with
        | ((_, some err), tr1) =>
          ⟨LoopExit.returned,
            tr1 ++ [Event.println "Could not get stack namees", Event.println err], [duration]⟩
        | ((stacks', none), tr1) =>
          let stackInNames := (IsNameInList stacks' stackName).2
          if stackInNames then
            ⟨LoopExit.broke,
              tr1 ++ [Event.println ("Found " ++ stackName ++ " in list of stacks, as expected")],
              [duration]⟩
          else
            let r := pollLoop svc stackName maxRetrySeconds fuel (wrapInt64 (duration * 2)) tr1
            ⟨r.exit, r.tr, duration :: r.counters⟩
    else ⟨LoopExit.condFalse, tr, []⟩

/-- The last step of `main` (lines 236-258). -/
def mainDelete (svc : Service) (operation stackName : String) (tr : List Event) : List Event :=
  if operation = "delete" ∨ operation = "all" then
    match DeleteStack svc tr stackName with
    | (some err, tr1) =>
      tr1 ++ [Event.println ("Could not delete stack " ++ stackName), Event.println err]
    | (none, tr1) =>
      let tr2 := tr1 ++ [Event.println (stackName ++ " should NOT be in the following list:")]
      match GetStackNamesAndStatus svc tr2 with
      | ((_, some err), tr3) =>
        tr3 ++ [Event.println "Could not get stack namees", Event.println err]
      | ((stacks', none), tr3) =>
        tr3 ++ stacks'.map (fun stack => Event.println (stack.1 ++ " Status: " ++ stack.2))
  else tr

/-- The middle step of `main` (lines 187-234), followed by `mainDelete`. -/
def mainConfirm (fuel : Nat) (svc : Service) (operation stackName : String)
    (maxRetrySeconds : Int) (tr : List Event) : Option (List Event) :=
  if operation = "create" ∨ operation = "delete" then
    let duration : Int := 10
    let stackInNames := false
    let r := pollLoop svc stackName maxRetrySeconds fuel duration tr
    match r.exit with
    | LoopExit.outOfFuel => none
    | LoopExit.returned => some r.tr
    | _ =>
      if !stackInNames then
        some (r.tr ++ [Event.println ("Could not find " ++ stackName ++ " in list of stacks")])
      else some (mainDelete svc operation stackName r.tr)
  else
    match GetStackNamesAndStatus svc tr with
    | ((_, some err), tr1) =>
      some (tr1 ++ [Event.println "Could not get stack namees", Event.println err])
    | ((stacks', none), tr1) =>
      let tr2 := tr1 ++ stacks'.map (fun stack =>
        if stackName ≠ "" ∧ stackName = stack.1 then
          Event.println (stack.1 ++ ", Status: " ++ stack.2)
        else Event.println (stack.1 ++ ", Status: " ++ stack.2))
      some (mainDelete svc operation stackName tr2)

/-- The floor put on `maxRetrySeconds` (lines 138-140). -/
def floorRetrySeconds (maxRetrySeconds : Int) : Int :=
  if maxRetrySeconds < 10 then 10 else maxRetrySeconds

/-- The stack name `main` works with and the trace after choosing it
(lines 163-168). -/
def chooseStackName (host : Host) (stackName : String)
    (tr : List Event) : String × List Event :=
  if stackName = "" then
    let stackName := "stack-" ++ host.uuid
    (stackName, tr ++ [Event.println ("Created stack name " ++ stackName)])
  else (stackName, tr)

/-- The part of `main` that talks to the service (lines 163-258), entered with the
template body read.  Creating the session (lines 173-175) sends no request. -/
def mainRemote (fuel : Nat) (host : Host) (svc : Service)
    (operation stackName templateBody : String) (maxRetrySeconds : Int) :
    Option (List Event) :=
  match chooseStackName host stackName [] with
  | (stackName, tr) =>
    if operation = "create" ∨ operation = "all" then
      match CreateStack svc tr stackName templateBody with
      | (some err, tr1) =>
        some (tr1 ++ [Event.println ("Could not create stack " ++ stackName), Event.println err])
      | (none, tr1) => mainConfirm fuel svc operation stackName maxRetrySeconds tr1
    else mainConfirm fuel svc operation stackName maxRetrySeconds tr

/-- The function `main` (lines 121-258).  The result is the trace of the run, or
`none` when the poll loop has not ended within `fuel` iterations. -/
def main (fuel : Nat) (flags : Flags) (host : Host) (svc : Service) :
    Option (List Event) :=
  let maxRetrySeconds := flags.d
  let operation := flags.o
  let stackName := flags.n
  let templateFile := flags.t
  if ¬ (operation = "all" ∨ operation = "create" ∨ operation = "delete" ∨ operation = "list") then
    some [Event.println ("Unknown operation: " ++ operation)]
  else
    let maxRetrySeconds := floorRetrySeconds maxRetrySeconds
    if (operation = "create" ∨ operation = "all") ∧ templateFile = "" then
      some [Event.println "You must supply the name of a template file:",
            Event.println "go run CfnCrudOps -t TEMPLATE-FILE"]
    else
      let templateBody := ""
      if operation = "create" ∨ operation = "all" then
        match host.ReadFile templateFile with
        | Except.error err =>
          some [Event.println ("Could not read template file " ++ templateFile),
                Event.println err]
        | Except.ok content =>
          let templateBody := content
          mainRemote fuel host svc operation stackName templateBody maxRetrySeconds
      else mainRemote fuel host svc operation stackName templateBody maxRetrySeconds

/-! ## `CfnCrudOps_test.go` -/

/-- The type `Config` of the test (lines 44-49). -/
structure Config where
  MaxRetrySeconds : Int
  TemplateFile : String
  Debug : Bool

/-- The global `ConfigFileName`. -/
def ConfigFileName : String := "config.json"

/-- `PopulateConfiguration` (lines 57-74).  `Unmarshal` stands for
`json.Unmarshal` into the global `GlobalConfig`, whose error the code drops. -/
def PopulateConfiguration (host : Host) (Unmarshal : String → Config → Config)
    (GlobalConfig : Config) : Option Error × Config :=
  match host.ReadFile ConfigFileName with
  | Except.error err => (some err, GlobalConfig)
  | Except.ok content => (none, Unmarshal content GlobalConfig)

/-- `GetTemplateFromFile` (lines 76-88): Go's pair `(templateBody, err)` and the
new trace. -/
def GetTemplateFromFile (host : Host) (GlobalConfig : Config) (filename : String)
    (tr : List Event) : (String × Option Error) × List Event :=
  match host.ReadFile filename with
  | Except.error err =>
    (("", some err),
      tr ++ [Event.println ("Could not read template file " ++ GlobalConfig.TemplateFile),
             Event.println err])
  | Except.ok content => ((content, none), tr)

/-- `DebugPrint` (lines 90-94). -/
def DebugPrint (debug : Bool) (s : String) (tr : List Event) : List Event :=
  if debug then tr ++ [Event.tLog s] else tr

/-- What the first poll loop of the test leaves behind: as `PollResult`, with the
variables `name` and `nameInList` the loop assigns. -/
structure FindResult where
  exit : LoopExit
  tr : List Event
  counters : List Int
  name : NameAndStatus
  nameInList : Bool
deriving DecidableEq, Repr

/-- The first poll loop of `TestCfnCrudOps` (lines 147-166).  `ts` is the value
computed once before the loop (line 145); `int(duration)` is `duration`. -/
def findLoop (svc : Service) (GlobalConfig : Config) (stackName : String) (ts : Int) :
    Nat → Int → NameAndStatus → Bool → List Event → FindResult
  | fuel, duration, name, nameInList, tr =>
    if duration < GlobalConfig.MaxRetrySeconds then
      match fuel with
      | 0 => ⟨LoopExit.outOfFuel, tr, [], name, nameInList⟩
      | fuel + 1 =>
        let tr1 := tr ++ [Event.tLog ("Sleeping " ++ toString duration ++ " seconds"),
                          Event.sleep ts]
        match GetStackNamesAndStatus svc tr1 with
        | ((_, some err), tr2) =>
          ⟨LoopExit.returned, tr2 ++ [Event.logFatal err], [duration], name, nameInList⟩
        | ((stacks', none), tr2) =>
          let tr3 := DebugPrint GlobalConfig.Debug "." tr2
          match IsNameInList stacks' stackName with
          | (name, nameInList) =>
            if nameInList then
              ⟨LoopExit.broke,
                DebugPrint GlobalConfig.Debug ("Found " ++ stackName ++ " in list of stacks") tr3,
                [duration], name, nameInList⟩
            else
              let r := findLoop svc GlobalConfig stackName ts fuel (wrapInt64 (duration * 2))
                name nameInList tr3
              ⟨r.exit, r.tr, duration :: r.counters, r.name, r.nameInList⟩
    else ⟨LoopExit.condFalse, tr, [], name, nameInList⟩

/-- What the second poll loop of the test leaves behind: as `FindResult`, with
the variable `status`. -/
structure GoneResult where
  exit : LoopExit
  tr : List Event
  counters : List Int
  name : NameAndStatus
  nameInList : Bool
  status : String
deriving DecidableEq, Repr

/-- The second poll loop of `TestCfnCrudOps` (lines 185-206). -/
def goneLoop (svc : Service) (GlobalConfig : Config) (stackName : String) (ts : Int) :
    Nat → Int → NameAndStatus → Bool → String → List Event → GoneResult
  | fuel, duration, name, nameInList, status, tr =>
    if duration < GlobalConfig.MaxRetrySeconds then
      match fuel with
      | 0 => ⟨LoopExit.outOfFuel, tr, [], name, nameInList, status⟩
      | fuel + 1 =>
        let tr1 := tr ++ [Event.tLog ("Sleeping " ++ toString duration ++ " seconds"),
                          Event.sleep ts]
        match GetStackNamesAndStatus svc tr1 with
        | ((_, some err), tr2) =>
          ⟨LoopExit.returned, tr2 ++ [Event.logFatal err], [duration], name, nameInList, status⟩
        | ((stacks', none), tr2) =>
          let tr3 := DebugPrint GlobalConfig.Debug "." tr2
          match IsNameInList stacks' stackName with
          | (name, nameInList) =>
            let status := name.2
            if nameInList ∧ status = "DELETE_COMPLETE" then
              ⟨LoopExit.broke, tr3, [duration], name, nameInList, status⟩
            else
              let r := goneLoop svc GlobalConfig stackName ts fuel (wrapInt64 (duration * 2))
                name nameInList status tr3
              ⟨r.exit, r.tr, duration :: r.counters, r.name, r.nameInList, r.status⟩
    else ⟨LoopExit.condFalse, tr, [], name, nameInList, status⟩

/-- The end of `TestCfnCrudOps`, from the deletion on (lines 173-213), entered
with the values `name` and `nameInList` the first loop left. -/
def testDelete (fuel : Nat) (svc : Service) (GlobalConfig : Config) (stackName : String)
    (name : NameAndStatus) (nameInList : Bool) (tr : List Event) : Option (List Event) :=
  let tr1 := DebugPrint GlobalConfig.Debug ("Deleting stack " ++ stackName) tr
  match DeleteStack svc tr1 stackName with
  | (some err, tr2) => some (tr2 ++ [Event.tFatal err])
  | (none, tr2) =>
    let tr3 := DebugPrint GlobalConfig.Debug
      ("Looking for " ++ stackName ++ " in list of stacks") tr2
    let duration : Int := 1
    let ts := MultiplyDuration duration Second
    let status := ""
    let r := goneLoop svc GlobalConfig stackName ts fuel duration name nameInList status tr3
    match r.exit with
    | LoopExit.outOfFuel => none
    | LoopExit.returned => some r.tr
    | _ =>
      if r.nameInList ∧ r.status = "DELETE_COMPLETE" then
        some (r.tr ++
          [Event.tLog ("Found " ++ r.name.1 ++ ", with status DELETE_COMPLETE, as expected")])
      else some (r.tr ++ [Event.tFatal (r.name.1 ++ " had unexpected status: " ++ r.status)])

/-- The test `TestCfnCrudOps` (lines 96-213).  The result is the trace of the run,
or `none` when a poll loop has not ended within `fuel` iterations. -/
def TestCfnCrudOps (fuel : Nat) (host : Host) (Unmarshal : String → Config → Config)
    (svc : Service) : Option (List Event) :=
  match PopulateConfiguration host Unmarshal ⟨0, "", false⟩ with
  | (some _, _) => some [Event.tErrorf ("Could not load configuration from " ++ ConfigFileName)]
  | (none, GlobalConfig) =>
    let tr : List Event :=
      [Event.tLog "Debugging:       Enabled",
       Event.tLog ("MaxRetrySeconds: " ++ toString GlobalConfig.MaxRetrySeconds),
       Event.tLog ("TemplateFile:    " ++ GlobalConfig.TemplateFile)]
    if GlobalConfig.TemplateFile = "" then
      some (tr ++ [Event.tErrorf "Configuration is missing value for TemplateFile"])
    else
      match GetTemplateFromFile host GlobalConfig GlobalConfig.TemplateFile tr with
      | ((templateBody, _), tr1) =>
        let stackName := "stack-" ++ host.uuid
        let tr2 := DebugPrint GlobalConfig.Debug ("Creating stack " ++ stackName) tr1
        match CreateStack svc tr2 stackName templateBody with
        | (some err, tr3) =>
          some (tr3 ++ [Event.tErrorf
            ("Got error " ++ err ++ " trying to create stack " ++ stackName)])
        | (none, tr3) =>
          let tr4 := tr3 ++ [Event.tLog ("Created stack " ++ stackName)]
          let nameInList := false
          let name : NameAndStatus := ("", "")
          let tr5 := DebugPrint GlobalConfig.Debug
            ("Looking for " ++ stackName ++ " in list of stacks") tr4
          let duration : Int := 1
          let ts := MultiplyDuration duration Second
          let r := findLoop svc GlobalConfig stackName ts fuel duration name nameInList tr5
          match r.exit with
          | LoopExit.outOfFuel => none
          | LoopExit.returned => some r.tr
          | _ =>
            if !r.nameInList then
              some (r.tr ++
                [Event.tFatal ("Could not find " ++ stackName ++ " in list of stacks")])
            else testDelete fuel svc GlobalConfig stackName r.name r.nameInList r.tr

/-! ## Sample inputs -/

/-- A service that accepts every request and lists the given summaries. -/
def constService (summaries : List StackSummary) : Service where
  CreateStack := fun _ _ _ => none
  WaitUntilStackCreateComplete := fun _ _ => none
  ListStacks := fun _ _ => Except.ok summaries
  DeleteStack := fun _ _ => none
  WaitUntilStackDeleteComplete := fun _ _ => none

/-- A machine with no readable file. -/
def bareHost : Host where
  ReadFile := fun _ => Except.error "no such file"
  uuid := "u"

/-- A service that answers every create request with `create` and every wait for
creation with `waitCreate`. -/
def failingService (create waitCreate : Option Error) : Service where
  CreateStack := fun _ _ _ => create
  WaitUntilStackCreateComplete := fun _ _ => waitCreate
  ListStacks := fun _ _ => Except.ok []
  DeleteStack := fun _ _ => none
  WaitUntilStackDeleteComplete := fun _ _ => none

/-- A service that accepts every request and lists the given summaries once the
caller has slept twice, and no stack before. -/
def slowService (summaries : List StackSummary) : Service where
  CreateStack := fun _ _ _ => none
  WaitUntilStackCreateComplete := fun _ _ => none
  ListStacks := fun tr _ =>
    if 2 ≤ tr.countP (fun e => match e with
        | Event.sleep _ => true
        | _ => false) then Except.ok summaries
    else Except.ok []
  DeleteStack := fun _ _ => none
  WaitUntilStackDeleteComplete := fun _ _ => none

/-- A machine on which every file reads as `content`. -/
def fileHost (content : String) : Host where
  ReadFile := fun _ => Except.ok content
  uuid := "u"

/-! ## Lemmas on the three wrappers -/

theorem appendSummaries_eq (stacks' : StackNamesAndStatus) (summaries : List StackSummary) :
    appendSummaries stacks' summaries =
      stacks' ++ summaries.map (fun s => (s.StackName, s.StackStatus)) := by
  induction summaries generalizing stacks' with
  | nil => simp [appendSummaries]
  | cons s rest ih =>
    have h := ih (stacks' ++ [(s.StackName, s.StackStatus)])
    simp only [appendSummaries, List.foldl_cons] at h ⊢
    rw [h]
    simp

theorem GetStackNamesAndStatus_ok (svc : Service) (tr : List Event)
    (summaries : List StackSummary) (h : svc.ListStacks tr allStatusValues = Except.ok summaries) :
    GetStackNamesAndStatus svc tr =
      ((summaries.map (fun s => (s.StackName, s.StackStatus)), none),
        tr ++ [Event.call (Call.listStacks allStatusValues)]) := by
  simp [GetStackNamesAndStatus, h, appendSummaries_eq]

theorem GetStackNamesAndStatus_error (svc : Service) (tr : List Event) (err : Error)
    (h : svc.ListStacks tr allStatusValues = Except.error err) :
    GetStackNamesAndStatus svc tr =
      (([], some err), tr ++ [Event.call (Call.listStacks allStatusValues)]) := by
  simp [GetStackNamesAndStatus, h]

theorem IsNameInList_found_iff (list : StackNamesAndStatus) (name : String) :
    (IsNameInList list name).2 = true ↔ ∃ stack ∈ list, stack.1 = name := by
  induction list with
  | nil => simp [IsNameInList]
  | cons stack rest ih =>
    by_cases h : stack.1 = name
    · simp [IsNameInList, h]
    · simp [IsNameInList, h, ih]

theorem IsNameInList_absent (list : StackNamesAndStatus) (name : String)
    (h : ∀ stack ∈ list, stack.1 ≠ name) : IsNameInList list name = (("", ""), false) := by
  induction list with
  | nil => rfl
  | cons stack rest ih =>
    have h1 : stack.1 ≠ name := h stack (List.mem_cons_self _ _)
    have h2 := ih (fun x hx => h x (List.mem_cons_of_mem _ hx))
    simp [IsNameInList, h1, h2]

theorem IsNameInList_split (list : StackNamesAndStatus) (name : String)
    (h : (IsNameInList list name).2 = true) :
    ∃ pre stack post, list = pre ++ stack :: post ∧ (∀ x ∈ pre, x.1 ≠ name) ∧
      stack.1 = name ∧ (IsNameInList list name).1 = stack := by
  induction list with
  | nil => simp [IsNameInList] at h
  | cons stack rest ih =>
    by_cases hs : stack.1 = name
    · exact ⟨[], stack, rest, by simp, by simp, hs, by rw [IsNameInList, if_pos hs]⟩
    · simp only [IsNameInList, hs, if_false] at h ⊢
      obtain ⟨pre, e, post, hl, hpre, he, hres⟩ := ih h
      refine ⟨stack :: pre, e, post, by simp [hl], ?_, he, hres⟩
      intro x hx
      rcases List.mem_cons.1 hx with rfl | hx
      · exact hs
      · exact hpre x hx

/-! ## The poll loops when the name never shows up -/

theorem wrapInt64_of_mem (x : Int) (hlo : -9223372036854775808 ≤ x)
    (hhi : x < 9223372036854775808) : wrapInt64 x = x := by
  unfold wrapInt64
  omega

theorem snapshot_absent (summaries : List StackSummary) (stackName : String)
    (habs : ∀ s ∈ summaries, s.StackName ≠ stackName) :
    IsNameInList (summaries.map (fun s => (s.StackName, s.StackStatus))) stackName =
      (("", ""), false) := by
  apply IsNameInList_absent
  intro stack hstack
  obtain ⟨s, hs, rfl⟩ := List.mem_map.1 hstack
  exact habs s hs

theorem pollLoop_stop (svc : Service) (stackName : String) (ceiling : Int) (fuel : Nat)
    (d : Int) (tr : List Event) (h : ceiling ≤ d) :
    pollLoop svc stackName ceiling fuel d tr = ⟨LoopExit.condFalse, tr, []⟩ := by
  cases fuel <;> simp [pollLoop, not_lt.2 h]

theorem pollLoop_step (svc : Service) (stackName : String) (ceiling : Int) (fuel : Nat)
    (d : Int) (tr : List Event) (hlt : d < ceiling) (summaries : List StackSummary)
    (hok : svc.ListStacks tr allStatusValues = Except.ok summaries)
    (habs : ∀ s ∈ summaries, s.StackName ≠ stackName) :
    pollLoop svc stackName ceiling (fuel + 1) d tr =
      ⟨(pollLoop svc stackName ceiling fuel (wrapInt64 (d * 2))
          (tr ++ [Event.call (Call.listStacks allStatusValues)])).exit,
        (pollLoop svc stackName ceiling fuel (wrapInt64 (d * 2))
          (tr ++ [Event.call (Call.listStacks allStatusValues)])).tr,
        d :: (pollLoop svc stackName ceiling fuel (wrapInt64 (d * 2))
          (tr ++ [Event.call (Call.listStacks allStatusValues)])).counters⟩ := by
  rw [pollLoop, if_pos hlt]
  simp [GetStackNamesAndStatus_ok svc tr summaries hok, snapshot_absent summaries stackName habs]

theorem range_map_doubling (d : Int) (k : Nat) :
    (List.range (k + 1)).map (fun i => d * 2 ^ i) =
      d :: (List.range k).map (fun i => d * 2 * 2 ^ i) := by
  rw [List.range_succ_eq_map]
  simp only [List.range_succ_eq_map, List.map_cons, List.map_map, pow_zero, mul_one,
    List.cons.injEq, true_and]
  apply List.map_congr_left
  intro i _
  simp only [Function.comp_apply, pow_succ]
  ring

theorem pollLoop_absent (svc : Service) (stackName : String) (ceiling : Int)
    (hnever : ∀ tr, ∃ summaries, svc.ListStacks tr allStatusValues = Except.ok summaries ∧
      ∀ s ∈ summaries, s.StackName ≠ stackName) :
    ∀ (k : Nat) (d : Int) (fuel : Nat) (tr : List Event), 0 < d →
      d * 2 ^ k < 9223372036854775808 → (∀ i < k, d * 2 ^ i < ceiling) →
      ceiling ≤ d * 2 ^ k → k ≤ fuel →
      pollLoop svc stackName ceiling fuel d tr =
        ⟨LoopExit.condFalse,
          tr ++ List.replicate k (Event.call (Call.listStacks allStatusValues)),
          (List.range k).map (fun i => d * 2 ^ i)⟩ := by
  intro k
  induction k with
  | zero =>
    intro d fuel tr _ _ _ hge _
    rw [pollLoop_stop svc stackName ceiling fuel d tr (by simpa using hge)]
    simp
  | succ k ih =>
    intro d fuel tr hd hmax hlt hge hfuel
    obtain ⟨fuel, rfl⟩ : ∃ f, fuel = f + 1 := ⟨fuel - 1, by omega⟩
    obtain ⟨summaries, hok, habs⟩ := hnever tr
    have h0 : d < ceiling := by simpa using hlt 0 (Nat.succ_pos k)
    have hpow : (1 : Int) ≤ 2 ^ k := one_le_pow₀ (by norm_num)
    have hd2 : d * 2 ≤ d * 2 ^ (k + 1) := by
      rw [pow_succ, ← mul_assoc, mul_right_comm]
      nlinarith
    have hw : wrapInt64 (d * 2) = d * 2 := wrapInt64_of_mem _ (by omega) (by omega)
    rw [pollLoop_step svc stackName ceiling fuel d tr h0 summaries hok habs, hw]
    have hstep : ∀ i : Nat, d * 2 * 2 ^ i = d * 2 ^ (i + 1) := fun i => by
      rw [pow_succ]; ring
    rw [ih (d * 2) fuel (tr ++ [Event.call (Call.listStacks allStatusValues)]) (by omega)
      (by rw [hstep]; exact hmax) (fun i hi => by rw [hstep]; exact hlt (i + 1) (by omega))
      (by rw [hstep]; exact hge) (by omega)]
    rw [range_map_doubling]
    simp [List.replicate_succ]

theorem findLoop_stop (svc : Service) (cfg : Config) (stackName : String) (ts : Int)
    (fuel : Nat) (d : Int) (name : NameAndStatus) (nameInList : Bool) (tr : List Event)
    (h : cfg.MaxRetrySeconds ≤ d) :
    findLoop svc cfg stackName ts fuel d name nameInList tr =
      ⟨LoopExit.condFalse, tr, [], name, nameInList⟩ := by
  cases fuel <;> simp [findLoop, not_lt.2 h]

theorem findLoop_step (svc : Service) (cfg : Config) (stackName : String) (ts : Int)
    (fuel : Nat) (d : Int) (name : NameAndStatus) (nameInList : Bool) (tr : List Event)
    (hlt : d < cfg.MaxRetrySeconds)
    (hnever : ∀ tr, ∃ summaries, svc.ListStacks tr allStatusValues = Except.ok summaries ∧
      ∀ s ∈ summaries, s.StackName ≠ stackName) :
    ∃ tr1, (findLoop svc cfg stackName ts (fuel + 1) d name nameInList tr).exit =
        (findLoop svc cfg stackName ts fuel (wrapInt64 (d * 2)) ("", "") false tr1).exit ∧
      (findLoop svc cfg stackName ts (fuel + 1) d name nameInList tr).counters =
        d :: (findLoop svc cfg stackName ts fuel (wrapInt64 (d * 2)) ("", "") false tr1).counters := by
  obtain ⟨summaries, hok, habs⟩ := hnever
    (tr ++ [Event.tLog ("Sleeping " ++ toString d ++ " seconds"), Event.sleep ts])
  refine ⟨DebugPrint cfg.Debug "."
    (tr ++ [Event.tLog ("Sleeping " ++ toString d ++ " seconds"), Event.sleep ts] ++
      [Event.call (Call.listStacks allStatusValues)]), ?_⟩
  rw [findLoop, if_pos hlt]
  simp [GetStackNamesAndStatus_ok svc _ summaries hok, snapshot_absent summaries stackName habs]

theorem findLoop_absent (svc : Service) (cfg : Config) (stackName : String) (ts : Int)
    (hnever : ∀ tr, ∃ summaries, svc.ListStacks tr allStatusValues = Except.ok summaries ∧
      ∀ s ∈ summaries, s.StackName ≠ stackName) :
    ∀ (k : Nat) (d : Int) (fuel : Nat) (name : NameAndStatus) (nameInList : Bool)
      (tr : List Event), 0 < d →
      d * 2 ^ k < 9223372036854775808 → (∀ i < k, d * 2 ^ i < cfg.MaxRetrySeconds) →
      cfg.MaxRetrySeconds ≤ d * 2 ^ k → k ≤ fuel →
      (findLoop svc cfg stackName ts fuel d name nameInList tr).exit = LoopExit.condFalse ∧
      (findLoop svc cfg stackName ts fuel d name nameInList tr).counters =
        (List.range k).map (fun i => d * 2 ^ i) := by
  intro k
  induction k with
  | zero =>
    intro d fuel name nameInList tr _ _ _ hge _
    rw [findLoop_stop svc cfg stackName ts fuel d name nameInList tr (by simpa using hge)]
    simp
  | succ k ih =>
    intro d fuel name nameInList tr hd hmax hlt hge hfuel
    obtain ⟨fuel, rfl⟩ : ∃ f, fuel = f + 1 := ⟨fuel - 1, by omega⟩
    have h0 : d < cfg.MaxRetrySeconds := by simpa using hlt 0 (Nat.succ_pos k)
    have hpow : (1 : Int) ≤ 2 ^ k := one_le_pow₀ (by norm_num)
    have hd2 : d * 2 ≤ d * 2 ^ (k + 1) := by
      rw [pow_succ, ← mul_assoc, mul_right_comm]
      nlinarith
    have hw : wrapInt64 (d * 2) = d * 2 := wrapInt64_of_mem _ (by omega) (by omega)
    obtain ⟨tr1, hexit, hcount⟩ :=
      findLoop_step svc cfg stackName ts fuel d name nameInList tr h0 hnever
    have hstep : ∀ i : Nat, d * 2 * 2 ^ i = d * 2 ^ (i + 1) := fun i => by
      rw [pow_succ]; ring
    have hrec := ih (d * 2) fuel ("", "") false tr1 (by omega)
      (by rw [hstep]; exact hmax) (fun i hi => by rw [hstep]; exact hlt (i + 1) (by omega))
      (by rw [hstep]; exact hge) (by omega)
    rw [hexit, hcount, hw, hrec.1, hrec.2, range_map_doubling]
    simp

theorem goneLoop_stop (svc : Service) (cfg : Config) (stackName : String) (ts : Int)
    (fuel : Nat) (d : Int) (name : NameAndStatus) (nameInList : Bool) (status : String)
    (tr : List Event) (h : cfg.MaxRetrySeconds ≤ d) :
    goneLoop svc cfg stackName ts fuel d name nameInList status tr =
      ⟨LoopExit.condFalse, tr, [], name, nameInList, status⟩ := by
  cases fuel <;> simp [goneLoop, not_lt.2 h]

theorem goneLoop_step (svc : Service) (cfg : Config) (stackName : String) (ts : Int)
    (fuel : Nat) (d : Int) (name : NameAndStatus) (nameInList : Bool) (status : String)
    (tr : List Event) (hlt : d < cfg.MaxRetrySeconds)
    (hnever : ∀ tr, ∃ summaries, svc.ListStacks tr allStatusValues = Except.ok summaries ∧
      ∀ s ∈ summaries, s.StackName ≠ stackName) :
    ∃ tr1, (goneLoop svc cfg stackName ts (fuel + 1) d name nameInList status tr).exit =
        (goneLoop svc cfg stackName ts fuel (wrapInt64 (d * 2)) ("", "") false "" tr1).exit ∧
      (goneLoop svc cfg stackName ts (fuel + 1) d name nameInList status tr).counters =
        d :: (goneLoop svc cfg stackName ts fuel (wrapInt64 (d * 2)) ("", "") false ""
          tr1).counters := by
  obtain ⟨summaries, hok, habs⟩ := hnever
    (tr ++ [Event.tLog ("Sleeping " ++ toString d ++ " seconds"), Event.sleep ts])
  refine ⟨DebugPrint cfg.Debug "."
    (tr ++ [Event.tLog ("Sleeping " ++ toString d ++ " seconds"), Event.sleep ts] ++
      [Event.call (Call.listStacks allStatusValues)]), ?_⟩
  rw [goneLoop, if_pos hlt]
  simp [GetStackNamesAndStatus_ok svc _ summaries hok, snapshot_absent summaries stackName habs]

theorem goneLoop_absent (svc : Service) (cfg : Config) (stackName : String) (ts : Int)
    (hnever : ∀ tr, ∃ summaries, svc.ListStacks tr allStatusValues = Except.ok summaries ∧
      ∀ s ∈ summaries, s.StackName ≠ stackName) :
    ∀ (k : Nat) (d : Int) (fuel : Nat) (name : NameAndStatus) (nameInList : Bool)
      (status : String) (tr : List Event), 0 < d →
      d * 2 ^ k < 9223372036854775808 → (∀ i < k, d * 2 ^ i < cfg.MaxRetrySeconds) →
      cfg.MaxRetrySeconds ≤ d * 2 ^ k → k ≤ fuel →
      (goneLoop svc cfg stackName ts fuel d name nameInList status tr).exit =
        LoopExit.condFalse ∧
      (goneLoop svc cfg stackName ts fuel d name nameInList status tr).counters =
        (List.range k).map (fun i => d * 2 ^ i) := by
  intro k
  induction k with
  | zero =>
    intro d fuel name nameInList status tr _ _ _ hge _
    rw [goneLoop_stop svc cfg stackName ts fuel d name nameInList status tr
      (by simpa using hge)]
    simp
  | succ k ih =>
    intro d fuel name nameInList status tr hd hmax hlt hge hfuel
    obtain ⟨fuel, rfl⟩ : ∃ f, fuel = f + 1 := ⟨fuel - 1, by omega⟩
    have h0 : d < cfg.MaxRetrySeconds := by simpa using hlt 0 (Nat.succ_pos k)
    have hpow : (1 : Int) ≤ 2 ^ k := one_le_pow₀ (by norm_num)
    have hd2 : d * 2 ≤ d * 2 ^ (k + 1) := by
      rw [pow_succ, ← mul_assoc, mul_right_comm]
      nlinarith
    have hw : wrapInt64 (d * 2) = d * 2 := wrapInt64_of_mem _ (by omega) (by omega)
    obtain ⟨tr1, hexit, hcount⟩ :=
      goneLoop_step svc cfg stackName ts fuel d name nameInList status tr h0 hnever
    have hstep : ∀ i : Nat, d * 2 * 2 ^ i = d * 2 ^ (i + 1) := fun i => by
      rw [pow_succ]; ring
    have hrec := ih (d * 2) fuel ("", "") false "" tr1 (by omega)
      (by rw [hstep]; exact hmax) (fun i hi => by rw [hstep]; exact hlt (i + 1) (by omega))
      (by rw [hstep]; exact hge) (by omega)
    rw [hexit, hcount, hw, hrec.1, hrec.2, range_map_doubling]
    simp

/-! ## Iteration counts -/

theorem ceil_logb_bounds (seed c : Int) (hseed : 0 < seed) (hc : seed ≤ c) :
    (∀ i < ⌈Real.logb 2 ((c : ℝ) / (seed : ℝ))⌉₊, seed * 2 ^ i < c) ∧
      c ≤ seed * 2 ^ ⌈Real.logb 2 ((c : ℝ) / (seed : ℝ))⌉₊ := by
  have hs : (0 : ℝ) < seed := by exact_mod_cast hseed
  have hcpos : (0 : ℝ) < c := by exact_mod_cast (lt_of_lt_of_le hseed hc)
  have hq : (0 : ℝ) < (c : ℝ) / seed := div_pos hcpos hs
  constructor
  · intro i hi
    have h1 : (i : ℝ) < Real.logb 2 ((c : ℝ) / seed) := Nat.lt_ceil.1 hi
    rw [Real.lt_logb_iff_rpow_lt (by norm_num) hq, Real.rpow_natCast, lt_div_iff₀ hs] at h1
    have h2 : (seed : ℝ) * 2 ^ i < c := by linarith
    exact_mod_cast h2
  · have h1 := Nat.le_ceil (Real.logb 2 ((c : ℝ) / seed))
    rw [Real.logb_le_iff_le_rpow (by norm_num) hq, Real.rpow_natCast, div_le_iff₀ hs] at h1
    have h2 : (c : ℝ) ≤ seed * 2 ^ ⌈Real.logb 2 ((c : ℝ) / seed)⌉₊ := by linarith
    exact_mod_cast h2

theorem doubling_index_le (seed c : Int) (k N : Nat) (hseed : 0 < seed)
    (hlt : ∀ i < k, seed * 2 ^ i < c) (hc : c ≤ seed * 2 ^ N) : k ≤ N := by
  rcases Nat.eq_zero_or_pos k with h0 | hpos
  · omega
  · have h1 := lt_of_lt_of_le (hlt (k - 1) (by omega)) hc
    have h2 : (2 : Int) ^ (k - 1) < 2 ^ N := lt_of_mul_lt_mul_left h1 hseed.le
    have h3 : k - 1 < N := (pow_lt_pow_iff_right₀ (by norm_num)).1 h2
    omega

theorem doubling_bound (seed c : Int) (k N : Nat) (hseed : 0 < seed)
    (hlt : ∀ i < k, seed * 2 ^ i < c) (hc : c ≤ seed * 2 ^ N) :
    seed * 2 ^ k ≤ seed * 2 ^ N :=
  mul_le_mul_of_nonneg_left
    (pow_le_pow_right₀ (by norm_num) (doubling_index_le seed c k N hseed hlt hc)) hseed.le

theorem floorRetrySeconds_ge (d : Int) : 10 ≤ floorRetrySeconds d := by
  unfold floorRetrySeconds
  split <;> omega

theorem floorRetrySeconds_le (d b : Int) (hd : d ≤ b) (hb : 10 ≤ b) :
    floorRetrySeconds d ≤ b := by
  unfold floorRetrySeconds
  split <;> omega

/-- C4 (amended).  Suppose every list request succeeds and no snapshot holds the
stack name.  For every `-d` value `d ≤ 10 * 2 ^ 59`, with ceiling `d` floored at
10 and seed 10, the poll loop of `main`, given fuel for `⌈log₂ (ceiling / 10)⌉`
iterations, leaves by its condition after exactly that many iterations, and
`duration` is `10 * 2 ^ i` at the start of iteration `i`.  For every
`MaxRetrySeconds` from 1 to `2 ^ 62` the same holds of both poll loops of the
test with seed 1: `⌈log₂ (MaxRetrySeconds / 1)⌉` iterations, `duration` equal to
`1 * 2 ^ i` at the start of iteration `i`. -/
theorem poll_counter_doubles (svc : Service) (stackName : String)
    (hnever : ∀ tr, ∃ summaries, svc.ListStacks tr allStatusValues = Except.ok summaries ∧
      ∀ s ∈ summaries, s.StackName ≠ stackName) :
    (∀ (d : Int) (fuel : Nat) (tr : List Event), d ≤ 10 * 2 ^ 59 →
      ⌈Real.logb 2 ((floorRetrySeconds d : ℝ) / 10)⌉₊ ≤ fuel →
      (pollLoop svc stackName (floorRetrySeconds d) fuel 10 tr).exit = LoopExit.condFalse ∧
      (pollLoop svc stackName (floorRetrySeconds d) fuel 10 tr).counters =
        (List.range ⌈Real.logb 2 ((floorRetrySeconds d : ℝ) / 10)⌉₊).map
          (fun i => 10 * 2 ^ i)) ∧
    (∀ (cfg : Config) (ts : Int) (fuel : Nat) (name : NameAndStatus) (nameInList : Bool)
      (status : String) (tr : List Event),
      1 ≤ cfg.MaxRetrySeconds → cfg.MaxRetrySeconds ≤ 2 ^ 62 →
      ⌈Real.logb 2 ((cfg.MaxRetrySeconds : ℝ) / 1)⌉₊ ≤ fuel →
      ((findLoop svc cfg stackName ts fuel 1 name nameInList tr).exit = LoopExit.condFalse ∧
        (findLoop svc cfg stackName ts fuel 1 name nameInList tr).counters =
          (List.range ⌈Real.logb 2 ((cfg.MaxRetrySeconds : ℝ) / 1)⌉₊).map
            (fun i => 1 * 2 ^ i)) ∧
      ((goneLoop svc cfg stackName ts fuel 1 name nameInList status tr).exit =
          LoopExit.condFalse ∧
        (goneLoop svc cfg stackName ts fuel 1 name nameInList status tr).counters =
          (List.range ⌈Real.logb 2 ((cfg.MaxRetrySeconds : ℝ) / 1)⌉₊).map
            (fun i => 1 * 2 ^ i))) := by
  constructor
  · intro d fuel tr hd hfuel
    have hb := ceil_logb_bounds 10 (floorRetrySeconds d) (by norm_num) (floorRetrySeconds_ge d)
    push_cast at hb
    have hle : floorRetrySeconds d ≤ 10 * 2 ^ 59 := floorRetrySeconds_le d _ hd (by norm_num)
    have hmax := doubling_bound 10 (floorRetrySeconds d) _ 59 (by norm_num) hb.1 hle
    have h := pollLoop_absent svc stackName (floorRetrySeconds d) hnever _ 10 fuel tr
      (by norm_num) (lt_of_le_of_lt hmax (by norm_num)) hb.1 hb.2 hfuel
    rw [h]
    exact ⟨rfl, rfl⟩
  · intro cfg ts fuel name nameInList status tr h1 h62 hfuel
    have hb := ceil_logb_bounds 1 cfg.MaxRetrySeconds (by norm_num) h1
    push_cast at hb
    have hle : cfg.MaxRetrySeconds ≤ 1 * 2 ^ 62 := by simpa using h62
    have hmax := doubling_bound 1 cfg.MaxRetrySeconds _ 62 (by norm_num) hb.1 hle
    exact ⟨findLoop_absent svc cfg stackName ts hnever _ 1 fuel name nameInList tr
        (by norm_num) (lt_of_le_of_lt hmax (by norm_num)) hb.1 hb.2 hfuel,
      goneLoop_absent svc cfg stackName ts hnever _ 1 fuel name nameInList status tr
        (by norm_num) (lt_of_le_of_lt hmax (by norm_num)) hb.1 hb.2 hfuel⟩

/-- C4 (witness).  `poll_counter_doubles` at the service that always lists no
stack, the name `s`, `-d 100` and `MaxRetrySeconds = 4`. -/
theorem poll_counter_doubles_witness :
    (∀ tr : List Event, ∃ summaries,
      (constService []).ListStacks tr allStatusValues = Except.ok summaries ∧
      ∀ s ∈ summaries, s.StackName ≠ "s") ∧
    ((pollLoop (constService []) "s" (floorRetrySeconds 100)
        ⌈Real.logb 2 ((floorRetrySeconds 100 : ℝ) / 10)⌉₊ 10 []).exit = LoopExit.condFalse ∧
      (pollLoop (constService []) "s" (floorRetrySeconds 100)
        ⌈Real.logb 2 ((floorRetrySeconds 100 : ℝ) / 10)⌉₊ 10 []).counters =
        (List.range ⌈Real.logb 2 ((floorRetrySeconds 100 : ℝ) / 10)⌉₊).map
          (fun i => 10 * 2 ^ i)) ∧
    ((findLoop (constService []) ⟨4, "t.yaml", false⟩ "s" Second
        ⌈Real.logb 2 (((4 : Int) : ℝ) / 1)⌉₊ 1 ("", "") false []).exit = LoopExit.condFalse ∧
      (findLoop (constService []) ⟨4, "t.yaml", false⟩ "s" Second
        ⌈Real.logb 2 (((4 : Int) : ℝ) / 1)⌉₊ 1 ("", "") false []).counters =
        (List.range ⌈Real.logb 2 (((4 : Int) : ℝ) / 1)⌉₊).map (fun i => 1 * 2 ^ i)) :=
  ⟨fun _ => ⟨[], rfl, by simp⟩,
    (poll_counter_doubles (constService []) "s" (fun _ => ⟨[], rfl, by simp⟩)).1 100 _ []
      (by norm_num) le_rfl,
    ((poll_counter_doubles (constService []) "s" (fun _ => ⟨[], rfl, by simp⟩)).2
      ⟨4, "t.yaml", false⟩ Second _ ("", "") false "" [] (by decide) (by decide) le_rfl).1⟩

/-! ## Overflow of the counter -/

theorem pollLoop_diverges (svc : Service) (stackName : String) (ceiling : Int)
    (hnever : ∀ tr, ∃ summaries, svc.ListStacks tr allStatusValues = Except.ok summaries ∧
      ∀ s ∈ summaries, s.StackName ≠ stackName) :
    ∀ (fuel : Nat) (d : Int) (tr : List Event),
      (∀ n, (fun x => wrapInt64 (x * 2))^[n] d < ceiling) →
      (pollLoop svc stackName ceiling fuel d tr).exit = LoopExit.outOfFuel := by
  intro fuel
  induction fuel with
  | zero =>
    intro d tr h
    have h0 : d < ceiling := by simpa using h 0
    simp [pollLoop, h0]
  | succ fuel ih =>
    intro d tr h
    have h0 : d < ceiling := by simpa using h 0
    obtain ⟨summaries, hok, habs⟩ := hnever tr
    rw [pollLoop_step svc stackName ceiling fuel d tr h0 summaries hok habs]
    exact ih _ _ (fun n => by simpa [Function.iterate_succ_apply] using h (n + 1))

theorem doubling_from_ten (n : Nat) :
    (fun x => wrapInt64 (x * 2))^[n] 10 < 9223372036854775807 := by
  have hsmall : ∀ n, n < 64 →
      (fun x => wrapInt64 (x * 2))^[n] 10 < 9223372036854775807 := by decide
  rcases Nat.lt_or_ge n 64 with h | h
  · exact hsmall n h
  · obtain ⟨m, rfl⟩ : ∃ m, n = m + 64 := ⟨n - 64, by omega⟩
    have h64 : (fun x => wrapInt64 (x * 2))^[64] 10 = 0 := by decide
    have hfix : (fun x => wrapInt64 (x * 2)) 0 = 0 := by decide
    rw [Function.iterate_add_apply, h64,
      @Function.iterate_fixed Int (fun x => wrapInt64 (x * 2)) 0 hfix m]
    decide

/-- C4 (counterexample).  With `-d 9223372036854775807` (the largest `int64`) and a
service that always lists no stack, `⌈log₂ (ceiling / 10)⌉` is 60, yet the poll
loop of `main` is still running after 61 iterations, `duration` at the start of
iteration 60 is `-6917529027641081856` and not `10 * 2 ^ 60`, and the loop ends
for no amount of fuel. -/
theorem poll_counter_overflow :
    ⌈Real.logb 2 ((floorRetrySeconds 9223372036854775807 : ℝ) / 10)⌉₊ = 60 ∧
    (pollLoop (constService []) "s" (floorRetrySeconds 9223372036854775807) 61 10 []).exit =
      LoopExit.outOfFuel ∧
    (pollLoop (constService []) "s" (floorRetrySeconds 9223372036854775807) 61 10
      []).counters.length = 61 ∧
    (pollLoop (constService []) "s" (floorRetrySeconds 9223372036854775807) 61 10
      []).counters[60]? = some (-6917529027641081856) ∧
    (-6917529027641081856 : Int) ≠ 10 * 2 ^ 60 ∧
    (∀ fuel, (pollLoop (constService []) "s" (floorRetrySeconds 9223372036854775807) fuel 10
      []).exit = LoopExit.outOfFuel) := by
  have hfloor : floorRetrySeconds 9223372036854775807 = 9223372036854775807 := by decide
  refine ⟨?_, by decide, by decide, by decide, by decide, ?_⟩
  · rw [hfloor, Nat.ceil_eq_iff (by norm_num)]
    have hq : (0 : ℝ) < ((9223372036854775807 : Int) : ℝ) / 10 := by norm_num
    constructor
    · rw [Real.lt_logb_iff_rpow_lt (by norm_num) hq]
      norm_num
    · rw [Real.logb_le_iff_le_rpow (by norm_num) hq]
      norm_num
  · intro fuel
    rw [hfloor]
    exact pollLoop_diverges (constService []) "s" _ (fun _ => ⟨[], rfl, by simp⟩) fuel 10 []
      doubling_from_ten

/-! ## The claims on single functions -/

/-- C1.  `IsNameInList list name` reports found exactly when some element of
`list` has `name` at index 0, and then the pair it returns is the first such
element of `list`: every element before it has another name. -/
theorem IsNameInList_first_match (list : StackNamesAndStatus) (name : String) :
    ((IsNameInList list name).2 = true ↔ ∃ stack ∈ list, stack.1 = name) ∧
    ((IsNameInList list name).2 = true →
      ∃ pre stack post, list = pre ++ stack :: post ∧ (∀ x ∈ pre, x.1 ≠ name) ∧
        stack.1 = name ∧ (IsNameInList list name).1 = stack) :=
  ⟨IsNameInList_found_iff list name, IsNameInList_split list name⟩

/-- C7.  When the list request succeeds with summaries `s_1 .. s_k`,
`GetStackNamesAndStatus` returns a nil error and a list of exactly `k` pairs whose
`i`-th pair is the name and the status of `s_i`; when the request fails with
`err` it returns `err`. -/
theorem GetStackNamesAndStatus_in_order (svc : Service) (tr : List Event) :
    (∀ summaries, svc.ListStacks tr allStatusValues = Except.ok summaries →
      (GetStackNamesAndStatus svc tr).1.2 = none ∧
      (GetStackNamesAndStatus svc tr).1.1.length = summaries.length ∧
      ∀ (i : Nat) (h : i < summaries.length),
        (GetStackNamesAndStatus svc tr).1.1[i]? =
          some ((summaries.get ⟨i, h⟩).StackName, (summaries.get ⟨i, h⟩).StackStatus)) ∧
    (∀ err, svc.ListStacks tr allStatusValues = Except.error err →
      (GetStackNamesAndStatus svc tr).1.2 = some err) := by
  constructor
  · intro summaries hok
    rw [GetStackNamesAndStatus_ok svc tr summaries hok]
    refine ⟨rfl, by simp, ?_⟩
    intro i h
    simp [List.getElem?_eq_getElem h]
  · intro err herr
    rw [GetStackNamesAndStatus_error svc tr err herr]

/-- C3 (the code at the failing input).  `DeleteStack` for the stack `stack-a`,
with a service that accepts every request: the deletion request names `stack-a`,
the wait request names `my-groovy-stack`. -/
theorem DeleteStack_waits_for_other_stack :
    DeleteStack (constService []) [] "stack-a" =
      (none, [Event.call (Call.deleteStack "stack-a"),
              Event.call (Call.waitUntilStackDeleteComplete "my-groovy-stack")]) := by
  decide

/-- C2 (the code at the failing input).  `main` with `-o delete -n s -d 100`,
when the first snapshot holds `s`: the loop prints its `Found` line, and `main`
then prints `Could not find s in list of stacks` and returns. -/
theorem main_reports_missing_after_found :
    main 1 ⟨100, "delete", "s", ""⟩ bareHost (constService [⟨"s", "CREATE_COMPLETE"⟩]) =
      some [Event.call (Call.listStacks allStatusValues),
            Event.println "Found s in list of stacks, as expected",
            Event.println "Could not find s in list of stacks"] := by
  decide

/-- C10 (the code at the failing input).  The test with `MaxRetrySeconds = 4` and
a service that lists the stack, as `CREATE_COMPLETE`, once the test has slept
twice: in each of the two poll loops the second iteration logs
`Sleeping 2 seconds` and sleeps `1000000000` nanoseconds, one second. -/
theorem test_sleeps_one_second_each_time :
    TestCfnCrudOps 2 (fileHost "x") (fun _ _ => ⟨4, "t.yaml", false⟩)
        (slowService [⟨"stack-u", "CREATE_COMPLETE"⟩]) =
      some [Event.tLog "Debugging:       Enabled",
            Event.tLog "MaxRetrySeconds: 4",
            Event.tLog "TemplateFile:    t.yaml",
            Event.call (Call.createStack "stack-u" "x"),
            Event.call (Call.waitUntilStackCreateComplete "stack-u"),
            Event.tLog "Created stack stack-u",
            Event.tLog "Sleeping 1 seconds",
            Event.sleep 1000000000,
            Event.call (Call.listStacks allStatusValues),
            Event.tLog "Sleeping 2 seconds",
            Event.sleep 1000000000,
            Event.call (Call.listStacks allStatusValues),
            Event.call (Call.deleteStack "stack-u"),
            Event.call (Call.waitUntilStackDeleteComplete "my-groovy-stack"),
            Event.tLog "Sleeping 1 seconds",
            Event.sleep 1000000000,
            Event.call (Call.listStacks allStatusValues),
            Event.tLog "Sleeping 2 seconds",
            Event.sleep 1000000000,
            Event.call (Call.listStacks allStatusValues),
            Event.tFatal "stack-u had unexpected status: CREATE_COMPLETE"] ∧
    MultiplyDuration 2 Second = 2000000000 := by
  decide

/-! ## The claims on `main` -/

theorem chooseStackName_prints (host : Host) (stackName : String) :
    ∀ e ∈ (chooseStackName host stackName []).2, ∃ s, e = Event.println s := by
  unfold chooseStackName
  split <;> simp

/-- C5.  When the operation flag is not one of `all`, `create`, `delete`, `list`,
or the operation is `create` or `all` and the template file flag is empty or
names a file that cannot be read, `main` returns having printed something and
having sent no request to the service: its trace is a non-empty list of printed
lines. -/
theorem main_invalid_config (fuel : Nat) (flags : Flags) (host : Host) (svc : Service)
    (h : ¬ (flags.o = "all" ∨ flags.o = "create" ∨ flags.o = "delete" ∨ flags.o = "list") ∨
      ((flags.o = "create" ∨ flags.o = "all") ∧ flags.t = "") ∨
      ((flags.o = "create" ∨ flags.o = "all") ∧
        ∃ err, host.ReadFile flags.t = Except.error err)) :
    ∃ trace, main fuel flags host svc = some trace ∧ trace ≠ [] ∧
      (∀ e ∈ trace, ∃ s, e = Event.println s) ∧ ∀ c, Event.call c ∉ trace := by
  have key : ∃ trace, main fuel flags host svc = some trace ∧ trace ≠ [] ∧
      ∀ e ∈ trace, ∃ s, e = Event.println s := by
    unfold main
    rcases h with h | ⟨hop, ht⟩ | ⟨hop, err, herr⟩
    · rw [if_pos h]
      exact ⟨_, rfl, by simp, by simp⟩
    · have hvalid : flags.o = "all" ∨ flags.o = "create" ∨ flags.o = "delete" ∨
          flags.o = "list" := by tauto
      rw [if_neg (not_not.2 hvalid), if_pos ⟨hop, ht⟩]
      exact ⟨_, rfl, by simp, by simp⟩
    · have hvalid : flags.o = "all" ∨ flags.o = "create" ∨ flags.o = "delete" ∨
          flags.o = "list" := by tauto
      rw [if_neg (not_not.2 hvalid)]
      by_cases ht : flags.t = ""
      · rw [if_pos ⟨hop, ht⟩]
        exact ⟨_, rfl, by simp, by simp⟩
      · rw [if_neg (fun hc => ht hc.2), if_pos hop]
        simp only [herr]
        exact ⟨_, rfl, by simp, by simp⟩
  obtain ⟨trace, hmain, hne, hprint⟩ := key
  refine ⟨trace, hmain, hne, hprint, ?_⟩
  intro c hc
  obtain ⟨s, hs⟩ := hprint _ hc
  cases hs

/-- C5 (witness).  `main_invalid_config` at `-o update`, at `-o create` with no
`-t`, and at `-o all -t missing.yaml` on a machine with no readable file. -/
theorem main_invalid_config_witness :
    (∃ trace, main 0 ⟨100, "update", "s", "t.yaml"⟩ bareHost (constService []) = some trace ∧
      trace ≠ [] ∧ (∀ e ∈ trace, ∃ s, e = Event.println s) ∧ ∀ c, Event.call c ∉ trace) ∧
    (∃ trace, main 0 ⟨100, "create", "s", ""⟩ bareHost (constService []) = some trace ∧
      trace ≠ [] ∧ (∀ e ∈ trace, ∃ s, e = Event.println s) ∧ ∀ c, Event.call c ∉ trace) ∧
    (∃ trace, main 0 ⟨100, "all", "s", "missing.yaml"⟩ bareHost (constService []) =
        some trace ∧
      trace ≠ [] ∧ (∀ e ∈ trace, ∃ s, e = Event.println s) ∧ ∀ c, Event.call c ∉ trace) :=
  ⟨main_invalid_config 0 ⟨100, "update", "s", "t.yaml"⟩ bareHost (constService [])
      (Or.inl (by decide)),
    main_invalid_config 0 ⟨100, "create", "s", ""⟩ bareHost (constService [])
      (Or.inr (Or.inl (by decide))),
    main_invalid_config 0 ⟨100, "all", "s", "missing.yaml"⟩ bareHost (constService [])
      (Or.inr (Or.inr ⟨by decide, "no such file", rfl⟩))⟩

theorem main_of_template (fuel : Nat) (flags : Flags) (host : Host) (svc : Service)
    (templateBody : String) (hop : flags.o = "all" ∨ flags.o = "create") (ht : flags.t ≠ "")
    (hread : host.ReadFile flags.t = Except.ok templateBody) :
    main fuel flags host svc =
      mainRemote fuel host svc flags.o flags.n templateBody (floorRetrySeconds flags.d) := by
  have hvalid : flags.o = "all" ∨ flags.o = "create" ∨ flags.o = "delete" ∨
      flags.o = "list" := by tauto
  have hop2 : flags.o = "create" ∨ flags.o = "all" := hop.symm
  unfold main
  rw [if_neg (not_not.2 hvalid), if_neg (fun hc => ht hc.2), if_pos hop2]
  simp only [hread]

theorem main_of_delete (fuel : Nat) (flags : Flags) (host : Host) (svc : Service)
    (hop : flags.o = "delete") :
    main fuel flags host svc =
      mainRemote fuel host svc flags.o flags.n "" (floorRetrySeconds flags.d) := by
  have hvalid : flags.o = "all" ∨ flags.o = "create" ∨ flags.o = "delete" ∨
      flags.o = "list" := by tauto
  have hop2 : ¬ (flags.o = "create" ∨ flags.o = "all") := by
    rw [hop]
    decide
  unfold main
  rw [if_neg (not_not.2 hvalid), if_neg (fun hc => hop2 hc.1), if_neg hop2]

theorem mainRemote_create_error (fuel : Nat) (host : Host) (svc : Service)
    (operation stackName templateBody : String) (maxRetrySeconds : Int) (err : Error)
    (tr1 : List Event) (hop : operation = "create" ∨ operation = "all")
    (hcreate : CreateStack svc (chooseStackName host stackName []).2
      (chooseStackName host stackName []).1 templateBody = (some err, tr1)) :
    mainRemote fuel host svc operation stackName templateBody maxRetrySeconds =
      some (tr1 ++ [Event.println
        ("Could not create stack " ++ (chooseStackName host stackName []).1),
        Event.println err]) := by
  unfold mainRemote
  simp only [if_pos hop, hcreate]

/-- C6.  Let `main` run with operation `all` or `create` and a readable template.
If the service rejects the create request with `err`, `CreateStack` returns `err`
having sent the create request only (no wait), and `main` prints
`Could not create stack <name>` and `err` and returns.  If the create request
succeeds and the wait for creation fails with `err`, `CreateStack` returns `err`
after the two requests, and `main` prints the same two lines and returns.  In
both runs the trace holds no `listStacks` and no `deleteStack` request. -/
theorem create_failure_stops_main (fuel : Nat) (flags : Flags) (host : Host) (svc : Service)
    (templateBody : String) (err : Error)
    (hop : flags.o = "all" ∨ flags.o = "create") (ht : flags.t ≠ "")
    (hread : host.ReadFile flags.t = Except.ok templateBody) :
    (∀ tr stackName body, svc.CreateStack tr stackName body = some err →
      CreateStack svc tr stackName body =
        (some err, tr ++ [Event.call (Call.createStack stackName body)])) ∧
    (∀ tr stackName body, svc.CreateStack tr stackName body = none →
      svc.WaitUntilStackCreateComplete
        (tr ++ [Event.call (Call.createStack stackName body)]) stackName = some err →
      CreateStack svc tr stackName body =
        (some err, tr ++ [Event.call (Call.createStack stackName body),
          Event.call (Call.waitUntilStackCreateComplete stackName)])) ∧
    (svc.CreateStack (chooseStackName host flags.n []).2 (chooseStackName host flags.n []).1
        templateBody = some err →
      ∃ trace, main fuel flags host svc = some trace ∧
        trace = (chooseStackName host flags.n []).2 ++
          [Event.call (Call.createStack (chooseStackName host flags.n []).1 templateBody),
           Event.println ("Could not create stack " ++ (chooseStackName host flags.n []).1),
           Event.println err] ∧
        (∀ f, Event.call (Call.listStacks f) ∉ trace) ∧
        ∀ n, Event.call (Call.deleteStack n) ∉ trace) ∧
    (svc.CreateStack (chooseStackName host flags.n []).2 (chooseStackName host flags.n []).1
        templateBody = none →
      svc.WaitUntilStackCreateComplete
        ((chooseStackName host flags.n []).2 ++
          [Event.call (Call.createStack (chooseStackName host flags.n []).1 templateBody)])
        (chooseStackName host flags.n []).1 = some err →
      ∃ trace, main fuel flags host svc = some trace ∧
        trace = (chooseStackName host flags.n []).2 ++
          [Event.call (Call.createStack (chooseStackName host flags.n []).1 templateBody),
           Event.call (Call.waitUntilStackCreateComplete (chooseStackName host flags.n []).1),
           Event.println ("Could not create stack " ++ (chooseStackName host flags.n []).1),
           Event.println err] ∧
        (∀ f, Event.call (Call.listStacks f) ∉ trace) ∧
        ∀ n, Event.call (Call.deleteStack n) ∉ trace) := by
  have hA : ∀ tr stackName body, svc.CreateStack tr stackName body = some err →
      CreateStack svc tr stackName body =
        (some err, tr ++ [Event.call (Call.createStack stackName body)]) := by
    intro tr stackName body h
    simp [CreateStack, h]
  have hB : ∀ tr stackName body, svc.CreateStack tr stackName body = none →
      svc.WaitUntilStackCreateComplete
        (tr ++ [Event.call (Call.createStack stackName body)]) stackName = some err →
      CreateStack svc tr stackName body =
        (some err, tr ++ [Event.call (Call.createStack stackName body),
          Event.call (Call.waitUntilStackCreateComplete stackName)]) := by
    intro tr stackName body h hw
    simp [CreateStack, h, hw]
  have hprints := chooseStackName_prints host flags.n
  have hno : ∀ c, Event.call c ∉ (chooseStackName host flags.n []).2 := by
    intro c hc
    obtain ⟨s, hs⟩ := hprints _ hc
    cases hs
  refine ⟨hA, hB, ?_, ?_⟩
  · intro h
    refine ⟨_, ?_, rfl, ?_, ?_⟩
    · rw [main_of_template fuel flags host svc templateBody hop ht hread,
        mainRemote_create_error fuel host svc flags.o flags.n templateBody _ err _ hop.symm
          (hA _ _ _ h)]
      simp
    · intro f
      simp [hno]
    · intro n
      simp [hno]
  · intro h hw
    refine ⟨_, ?_, rfl, ?_, ?_⟩
    · rw [main_of_template fuel flags host svc templateBody hop ht hread,
        mainRemote_create_error fuel host svc flags.o flags.n templateBody _ err _ hop.symm
          (hB _ _ _ h hw)]
      simp
    · intro f
      simp [hno]
    · intro n
      simp [hno]

/-- C6 (witness).  `create_failure_stops_main` at `-o all -n s -t t.yaml` with a
service that rejects every create request with `denied`, and at `-o create` with
a service whose wait for creation fails with `timed out`; the template reads as
`body`. -/
theorem create_failure_stops_main_witness :
    main 0 ⟨100, "all", "s", "t.yaml"⟩ (fileHost "body") (failingService (some "denied") none) =
      some [Event.call (Call.createStack "s" "body"),
            Event.println "Could not create stack s",
            Event.println "denied"] ∧
    main 0 ⟨100, "create", "s", "t.yaml"⟩ (fileHost "body")
        (failingService none (some "timed out")) =
      some [Event.call (Call.createStack "s" "body"),
            Event.call (Call.waitUntilStackCreateComplete "s"),
            Event.println "Could not create stack s",
            Event.println "timed out"] := by
  obtain ⟨trace, hmain, htrace, _, _⟩ :=
    (create_failure_stops_main 0 ⟨100, "all", "s", "t.yaml"⟩ (fileHost "body")
      (failingService (some "denied") none) "body" "denied" (Or.inl rfl) (by decide) rfl).2.2.1
      rfl
  obtain ⟨trace2, hmain2, htrace2, _, _⟩ :=
    (create_failure_stops_main 0 ⟨100, "create", "s", "t.yaml"⟩ (fileHost "body")
      (failingService none (some "timed out")) "body" "timed out" (Or.inr rfl) (by decide)
      rfl).2.2.2 rfl rfl
  rw [hmain, htrace, hmain2, htrace2]
  decide

theorem CreateStack_no_list (svc : Service) (tr : List Event) (stackName body : String)
    (h : ∀ f, Event.call (Call.listStacks f) ∉ tr) :
    ∀ f, Event.call (Call.listStacks f) ∉ (CreateStack svc tr stackName body).2 := by
  intro f
  cases h1 : svc.CreateStack tr stackName body with
  | some err => simp [CreateStack, h1, h]
  | none =>
    cases h2 : svc.WaitUntilStackCreateComplete
        (tr ++ [Event.call (Call.createStack stackName body)]) stackName with
    | some err => simp [CreateStack, h1, h2, h]
    | none => simp [CreateStack, h1, h2, h]

theorem mainConfirm_floor (fuel : Nat) (svc : Service) (operation stackName : String)
    (maxRetrySeconds : Int) (tr : List Event)
    (hop : operation = "create" ∨ operation = "delete") (hc : maxRetrySeconds ≤ 10) :
    mainConfirm fuel svc operation stackName maxRetrySeconds tr =
      some (tr ++ [Event.println ("Could not find " ++ stackName ++ " in list of stacks")]) := by
  unfold mainConfirm
  simp [if_pos hop, pollLoop_stop svc stackName maxRetrySeconds fuel 10 tr hc]

theorem mainRemote_floor (fuel : Nat) (host : Host) (svc : Service)
    (operation stackName templateBody : String) (maxRetrySeconds : Int)
    (hop : operation = "create" ∨ operation = "delete") (hc : maxRetrySeconds ≤ 10) :
    ∃ trace, mainRemote fuel host svc operation stackName templateBody maxRetrySeconds =
        some trace ∧ ∀ f, Event.call (Call.listStacks f) ∉ trace := by
  have hno : ∀ f, Event.call (Call.listStacks f) ∉ (chooseStackName host stackName []).2 := by
    intro f hf
    obtain ⟨s, hs⟩ := chooseStackName_prints host stackName _ hf
    cases hs
  have hcreate := CreateStack_no_list svc (chooseStackName host stackName []).2
    (chooseStackName host stackName []).1 templateBody hno
  unfold mainRemote
  simp only [mainConfirm_floor fuel svc operation _ maxRetrySeconds _ hop hc]
  split
  · rcases hres : CreateStack svc (chooseStackName host stackName []).2
      (chooseStackName host stackName []).1 templateBody with ⟨e, tr1⟩
    rw [hres] at hcreate
    cases e with
    | none => exact ⟨_, rfl, fun f => by simpa using hcreate f⟩
    | some err => exact ⟨_, rfl, fun f => by simpa using hcreate f⟩
  · exact ⟨_, rfl, fun f => by simpa using hno f⟩

/-- C8.  For every `-d` value `d ≤ 10` the ceiling `main` uses is 10, the poll loop
started at `duration = 10` leaves at once with the trace unchanged (its body runs
zero times), and a run of `main` with operation `create` or `delete` sends no
`listStacks` request; for every `d > 10` the ceiling is `d`. -/
theorem floor_ten_runs_no_poll (fuel : Nat) (flags : Flags) (host : Host) (svc : Service) :
    (flags.d ≤ 10 →
      floorRetrySeconds flags.d = 10 ∧
      (∀ (stackName : String) (fuel : Nat) (tr : List Event),
        pollLoop svc stackName (floorRetrySeconds flags.d) fuel 10 tr =
          ⟨LoopExit.condFalse, tr, []⟩) ∧
      (flags.o = "create" ∨ flags.o = "delete" →
        ∃ trace, main fuel flags host svc = some trace ∧
          ∀ f, Event.call (Call.listStacks f) ∉ trace)) ∧
    (10 < flags.d → floorRetrySeconds flags.d = flags.d) := by
  constructor
  · intro hd
    have hfloor : floorRetrySeconds flags.d = 10 := by
      unfold floorRetrySeconds
      split <;> omega
    refine ⟨hfloor, fun stackName fuel tr => ?_, fun hop => ?_⟩
    · exact pollLoop_stop svc stackName _ fuel 10 tr (by omega)
    · unfold main
      simp only []
      split
      · exact ⟨_, rfl, by simp⟩
      · split
        · exact ⟨_, rfl, by simp⟩
        · split
          · split
            · exact ⟨_, rfl, by simp⟩
            · exact mainRemote_floor fuel host svc flags.o flags.n _ _ hop (by omega)
          · exact mainRemote_floor fuel host svc flags.o flags.n _ _ hop (by omega)
  · intro hd
    unfold floorRetrySeconds
    split <;> omega

/-- C9 (counterexample).  `main` with `-o delete -n s -d 100` and a service that
always lists no stack: after four list requests `main` prints
`Could not find s in list of stacks` and returns, and no `deleteStack` request is
in the trace. -/
theorem delete_after_failed_confirmation_refuted :
    main 4 ⟨100, "delete", "s", ""⟩ bareHost (constService []) =
      some [Event.call (Call.listStacks allStatusValues),
            Event.call (Call.listStacks allStatusValues),
            Event.call (Call.listStacks allStatusValues),
            Event.call (Call.listStacks allStatusValues),
            Event.println "Could not find s in list of stacks"] ∧
    Event.call (Call.deleteStack "s") ∉
      [Event.call (Call.listStacks allStatusValues),
       Event.call (Call.listStacks allStatusValues),
       Event.call (Call.listStacks allStatusValues),
       Event.call (Call.listStacks allStatusValues),
       Event.println "Could not find s in list of stacks"] := by
  decide

/-- C9 (amended).  Let the operation be `delete`, let `-d` be at most
`10 * 2 ^ 59`, and suppose every list request succeeds and no snapshot holds the
stack name.  Then `main`, given fuel for 59 iterations, returns; the last thing
it does is print `Could not find <name> in list of stacks`, and it sends no
`deleteStack` request. -/
theorem delete_skipped_when_unseen (fuel : Nat) (flags : Flags) (host : Host) (svc : Service)
    (hop : flags.o = "delete") (hd : flags.d ≤ 10 * 2 ^ 59) (hfuel : 59 ≤ fuel)
    (hnever : ∀ tr, ∃ summaries, svc.ListStacks tr allStatusValues = Except.ok summaries ∧
      ∀ s ∈ summaries, s.StackName ≠ (chooseStackName host flags.n []).1) :
    ∃ trace, main fuel flags host svc = some trace ∧
      trace.getLast? = some (Event.println
        ("Could not find " ++ (chooseStackName host flags.n []).1 ++ " in list of stacks")) ∧
      ∀ n, Event.call (Call.deleteStack n) ∉ trace := by
  have hb := ceil_logb_bounds 10 (floorRetrySeconds flags.d) (by norm_num)
    (floorRetrySeconds_ge flags.d)
  push_cast at hb
  have hle : floorRetrySeconds flags.d ≤ 10 * 2 ^ 59 :=
    floorRetrySeconds_le flags.d _ hd (by norm_num)
  have hk := doubling_index_le 10 (floorRetrySeconds flags.d) _ 59 (by norm_num) hb.1 hle
  have hmax := doubling_bound 10 (floorRetrySeconds flags.d) _ 59 (by norm_num) hb.1 hle
  have hloop := pollLoop_absent svc (chooseStackName host flags.n []).1
    (floorRetrySeconds flags.d) hnever _ 10 fuel (chooseStackName host flags.n []).2
    (by norm_num) (lt_of_le_of_lt hmax (by norm_num)) hb.1 hb.2 (le_trans hk hfuel)
  have hno : ∀ n, Event.call (Call.deleteStack n) ∉ (chooseStackName host flags.n []).2 := by
    intro n hn
    obtain ⟨s, hs⟩ := chooseStackName_prints host flags.n _ hn
    cases hs
  have hop2 : ¬ (flags.o = "create" ∨ flags.o = "all") := by
    rw [hop]
    decide
  refine ⟨(chooseStackName host flags.n []).2 ++
      List.replicate ⌈Real.logb 2 ((floorRetrySeconds flags.d : ℝ) / 10)⌉₊
        (Event.call (Call.listStacks allStatusValues)) ++
      [Event.println ("Could not find " ++ (chooseStackName host flags.n []).1 ++
        " in list of stacks")], ?_, ?_, ?_⟩
  · rw [main_of_delete fuel flags host svc hop]
    unfold mainRemote
    simp only [if_neg hop2]
    unfold mainConfirm
    simp only [if_pos (Or.inr hop : flags.o = "create" ∨ flags.o = "delete"), hloop]
    rfl
  · simp
  · intro n
    simp [hno]

/-- C9 (witness).  `delete_skipped_when_unseen` at `-o delete -n s -d 100`, fuel
59, and a service that always lists no stack. -/
theorem delete_skipped_when_unseen_witness :
    ∃ trace, main 59 ⟨100, "delete", "s", ""⟩ bareHost (constService []) = some trace ∧
      trace.getLast? = some (Event.println
        ("Could not find " ++ (chooseStackName bareHost "s" []).1 ++ " in list of stacks")) ∧
      ∀ n, Event.call (Call.deleteStack n) ∉ trace :=
  delete_skipped_when_unseen 59 ⟨100, "delete", "s", ""⟩ bareHost (constService []) rfl
    (by norm_num) le_rfl (fun _ => ⟨[], rfl, by simp⟩)

end CfnCrudOps

